import Mathlib

set_option maxRecDepth 10000

/-!
Verification of the lesson-generator pipeline: shallow embedding of the
prompt admission filter, the static TypeScript-code validator, the rate
limiter, the generation/repair orchestration and the compilation endpoint,
with theorems settling the specification claims.

Strings are modelled by Lean `String`/`List Char`; JavaScript regular
expressions are modelled by explicit decidable predicates over `List Char`
that follow the semantics of each concrete pattern in the source.
-/

namespace LessonGen

/-! ## Character helpers (JS regex character classes) -/

/-- ASCII lower-casing, the canonicalisation used by the `/i` regex flag for
the ASCII patterns appearing in the source. -/
def asciiToLower (c : Char) : Char :=
  if 'A' ≤ c ∧ c ≤ 'Z' then Char.ofNat (c.toNat + 32) else c

/-- Case-insensitive character equality (ASCII case folding). -/
def ciEq (a b : Char) : Bool :=
  asciiToLower a = asciiToLower b

/-- JS regex `\w` / word character: `[A-Za-z0-9_]`. -/
def isWordChar (c : Char) : Bool :=
  ('a' ≤ c && c ≤ 'z') || ('A' ≤ c && c ≤ 'Z') || ('0' ≤ c && c ≤ '9') || c = '_'

/-- JS regex `\s`: the ECMAScript WhiteSpace and LineTerminator characters. -/
def isJsWs (c : Char) : Bool :=
  c = ' ' || c = '\t' || c = '\n' || c = '\r' ||
  c.toNat = 0x0b || c.toNat = 0x0c || c.toNat = 0xa0 || c.toNat = 0x1680 ||
  (0x2000 ≤ c.toNat && c.toNat ≤ 0x200a) ||
  c.toNat = 0x2028 || c.toNat = 0x2029 || c.toNat = 0x202f ||
  c.toNat = 0x205f || c.toNat = 0x3000 || c.toNat = 0xfeff

/-- JS line terminators, the characters not matched by the regex dot. -/
def isLineTerm (c : Char) : Bool :=
  c = '\n' || c = '\r' || c.toNat = 0x2028 || c.toNat = 0x2029

/-- ASCII digit (JS `\d`). -/
def isAsciiDigit (c : Char) : Bool :=
  '0' ≤ c && c ≤ '9'

/-- ASCII letter or digit. -/
def isAsciiAlnum (c : Char) : Bool :=
  ('a' ≤ c && c ≤ 'z') || ('A' ≤ c && c ≤ 'Z') || isAsciiDigit c

/-! ## List-of-characters utilities -/

/-- `JS String.prototype.trim` on a character list. -/
def trimList (cs : List Char) : List Char :=
  ((cs.dropWhile isJsWs).reverse.dropWhile isJsWs).reverse

/-- JS `trim` on strings. -/
def jsTrim (s : String) : String :=
  String.mk (trimList s.data)

/-- JS `String.prototype.length` counts UTF-16 code units: astral
codepoints count twice. -/
def jsLenList (cs : List Char) : Nat :=
  cs.foldl (fun n c => n + (if c.toNat ≥ 0x10000 then 2 else 1)) 0

/-- JS string length of a Lean string. -/
def jsLen (s : String) : Nat :=
  jsLenList s.data

/-- Case-insensitive list prefix test. -/
def ciPrefixOf : List Char → List Char → Bool
  | [], _ => true
  | _ :: _, [] => false
  | a :: as, b :: bs => ciEq a b && ciPrefixOf as bs

/-- Case-sensitive substring containment on character lists. -/
def containsList (sub : List Char) : List Char → Bool
  | [] => sub.isPrefixOf []
  | c :: cs => sub.isPrefixOf (c :: cs) || containsList sub cs

/-- Case-insensitive substring containment on character lists. -/
def containsCIList (sub : List Char) : List Char → Bool
  | [] => ciPrefixOf sub []
  | c :: cs => ciPrefixOf sub (c :: cs) || containsCIList sub cs

/-- `JS String.prototype.includes` on Lean strings. -/
def containsStr (s : String) (sub : String) : Bool :=
  containsList sub.data s.data

/-- Case-insensitive substring containment on Lean strings. -/
def containsCIStr (s : String) (sub : String) : Bool :=
  containsCIList sub.data s.data

/-- Length of the run of characters satisfying `p` at the head of the list. -/
def headRunLen (p : Char → Bool) : List Char → Nat
  | [] => 0
  | c :: cs => if p c then headRunLen p cs + 1 else 0

/-- Is there, anywhere in the list, a run of at least `n` consecutive
characters satisfying `p`? -/
def hasRunOf (p : Char → Bool) (n : Nat) : List Char → Bool
  | [] => n = 0
  | c :: cs => (decide (n ≤ headRunLen p (c :: cs))) || hasRunOf p n cs

/-- Leftmost-scan helper: apply `f` to every suffix, left to right, and
return the first hit. -/
def findFirstSuffix {α : Type} (f : List Char → Option α) : List Char → Option α
  | [] => f []
  | c :: cs =>
    match f (c :: cs) with
    | some r => some r
    | none => findFirstSuffix f cs

/-! ## Regex word boundaries and token sequences -/

/-- Does the word `w` occur starting at position `i` of `hay` with a `\b`
boundary on both sides (case-sensitive)? -/
def wordAt (hay : List Char) (w : List Char) (i : Nat) : Bool :=
  (decide (i = 0) || !isWordChar (hay.getD (i - 1) ' ')) &&
  w.isPrefixOf (hay.drop i) &&
  (decide (hay.length ≤ i + w.length) || !isWordChar (hay.getD (i + w.length) ' '))

/-- Case-insensitive variant of `wordAt`. -/
def wordAtCI (hay : List Char) (w : List Char) (i : Nat) : Bool :=
  (decide (i = 0) || !isWordChar (hay.getD (i - 1) ' ')) &&
  ciPrefixOf w (hay.drop i) &&
  (decide (hay.length ≤ i + w.length) || !isWordChar (hay.getD (i + w.length) ' '))

/-- JS `/\bw\b/` test (case-sensitive). -/
def containsWord (hay : List Char) (w : List Char) : Bool :=
  (List.range (hay.length + 1)).any (fun i => wordAt hay w i)

/-- JS `/\bw\b/i` test. -/
def containsWordCI (hay : List Char) (w : List Char) : Bool :=
  (List.range (hay.length + 1)).any (fun i => wordAtCI hay w i)

/-- Tokens of a linear regex: literal text, case-insensitive literal,
`\s*`, `\s+`, a case-insensitive alternation, a one-character class. -/
inductive Tok where
  | lit (s : List Char)
  | litCI (s : List Char)
  | wsStar
  | wsPlus
  | altCI (alts : List (List Char))
  | cls (p : Char → Bool)

/-- Existential matcher for a token sequence against the head of `cs`
(backtracking semantics of a `test` call: the pattern matches here iff some
division of the input fits the tokens). -/
def matchToksFrom : List Tok → List Char → Bool
  | [], _ => true
  | Tok.lit s :: ts, cs => s.isPrefixOf cs && matchToksFrom ts (cs.drop s.length)
  | Tok.litCI s :: ts, cs => ciPrefixOf s cs && matchToksFrom ts (cs.drop s.length)
  | Tok.wsStar :: ts, cs =>
    (List.range (cs.length + 1)).any
      (fun k => (cs.take k).all isJsWs && matchToksFrom ts (cs.drop k))
  | Tok.wsPlus :: ts, cs =>
    (List.range (cs.length + 1)).any
      (fun k => decide (1 ≤ k) && (cs.take k).all isJsWs && matchToksFrom ts (cs.drop k))
  | Tok.altCI alts :: ts, cs =>
    alts.any (fun a => ciPrefixOf a cs && matchToksFrom ts (cs.drop a.length))
  | Tok.cls p :: ts, cs =>
    match cs with
    | [] => false
    | c :: rest => p c && matchToksFrom ts rest

/-- Does the token sequence match anywhere in `cs` (JS `test` of an
unanchored pattern)? -/
def containsToks (ts : List Tok) (cs : List Char) : Bool :=
  (List.range (cs.length + 1)).any (fun i => matchToksFrom ts (cs.drop i))

/-- Match a token sequence at some position that has a `\b` boundary
before it (pattern of the shape `\b…`, where the first token starts
with a word character). -/
def containsToksAtWordStart (ts : List Tok) (cs : List Char) : Bool :=
  (List.range (cs.length + 1)).any
    (fun i =>
      (decide (i = 0) || !isWordChar (cs.getD (i - 1) ' ')) &&
      matchToksFrom ts (cs.drop i))

/-! ## Rate limiter (src/unnamed/part_000, `rateLimit`) -/

/-- One entry of the in-memory rate-limit store. -/
structure RLEntry where
  count : Nat
  resetTime : Nat
  deriving Repr, DecidableEq

/-- Rate-limit configuration: window length in milliseconds and maximum
requests per window. -/
structure RateLimitConfig where
  interval : Nat
  uniqueTokenPerInterval : Nat
  deriving Repr, DecidableEq

/-- The rate-limit result returned to callers. -/
structure RateLimitResult where
  success : Bool
  limit : Nat
  remaining : Nat
  reset : Nat
  deriving Repr, DecidableEq

/-- The in-memory store, keyed by `ratelimit:<ip>` strings. -/
def RLStore := List (String × RLEntry)

/-- Map lookup. -/
def storeGet (st : RLStore) (k : String) : Option RLEntry :=
  match st with
  | [] => none
  | (k', e) :: rest => if k' = k then some e else storeGet rest k

/-- Map insert/overwrite. -/
def storeSet (st : RLStore) (k : String) (e : RLEntry) : RLStore :=
  match st with
  | [] => [(k, e)]
  | (k', e') :: rest =>
    if k' = k then (k, e) :: rest else (k', e') :: storeSet rest k e

/-- `cleanupOldEntries`: drop every entry whose reset time has passed. -/
def cleanupOldEntries (st : RLStore) (now : Nat) : RLStore :=
  st.filter (fun p => !decide (p.2.resetTime < now))

/-- `rateLimit` from the source: look up (or lazily create/reset) the
window for `key`, increment its count, store it back and allow iff the
post-increment count does not exceed the configured maximum.  The
probabilistic cleanup is modelled by the explicit `clean` flag (the source
triggers it on 1% of calls). -/
def rateLimit (st : RLStore) (key : String) (now : Nat)
    (cfg : RateLimitConfig) (clean : Bool) : RateLimitResult × RLStore :=
  let entry : RLEntry :=
    match storeGet st key with
    | none => { count := 0, resetTime := now + cfg.interval }
    | some e =>
      if e.resetTime < now then { count := 0, resetTime := now + cfg.interval } else e
  let entry : RLEntry := { entry with count := entry.count + 1 }
  let st' := storeSet st key entry
  let st' := if clean then cleanupOldEntries st' now else st'
  ({ success := !decide (cfg.uniqueTokenPerInterval < entry.count),
     limit := cfg.uniqueTokenPerInterval,
     remaining := cfg.uniqueTokenPerInterval - entry.count,
     reset := entry.resetTime }, st')

/-- Fold a sequence of timestamped calls for one key through the limiter,
collecting the `success` flags. -/
def rateLimitSeq (key : String) (cfg : RateLimitConfig) :
    List Nat → RLStore → List Bool × RLStore
  | [], st => ([], st)
  | t :: ts, st =>
    let (r, st') := rateLimit st key t cfg false
    let (bs, st'') := rateLimitSeq key cfg ts st'
    (r.success :: bs, st'')

/-! ## Admission filter (src/unnamed/part_000, `validateLessonPrompt`) -/

/-- Shorthand: characters of a string literal. -/
def chars (s : String) : List Char :=
  s.data

/-- Characters of the invisible/zero-width class
`[​-‍﻿ ]`. -/
def isInvisibleChar (c : Char) : Bool :=
  (0x200b ≤ c.toNat && c.toNat ≤ 0x200d) || c.toNat = 0xfeff || c.toNat = 0xa0

/-- Characters of the emoji class used by the filter. -/
def isEmojiChar (c : Char) : Bool :=
  (0x1f600 ≤ c.toNat && c.toNat ≤ 0x1f64f) ||
  (0x1f300 ≤ c.toNat && c.toNat ≤ 0x1f5ff) ||
  (0x1f680 ≤ c.toNat && c.toNat ≤ 0x1f6ff) ||
  (0x2600 ≤ c.toNat && c.toNat ≤ 0x26ff) ||
  (0x2700 ≤ c.toNat && c.toNat ≤ 0x27bf)

/-- Number of emoji matches in the text. -/
def emojiCount (cs : List Char) : Nat :=
  (cs.filter isEmojiChar).length

/-- Spam pattern `/(.)\1{10,}/i`: some non-line-terminator character is
followed by at least ten further copies of itself (case-insensitively). -/
def hasRepeatRun : List Char → Bool
  | [] => false
  | c :: rest =>
    (!isLineTerm c && decide (10 ≤ headRunLen (fun x => ciEq x c) rest)) || hasRepeatRun rest

/-- Indic-script ranges excluded from the only-special-characters spam
pattern. -/
def isSpamIndicChar (c : Char) : Bool :=
  (0x0900 ≤ c.toNat && c.toNat ≤ 0x097f) || (0x0980 ≤ c.toNat && c.toNat ≤ 0x09ff) ||
  (0x0a00 ≤ c.toNat && c.toNat ≤ 0x0a7f) || (0x0a80 ≤ c.toNat && c.toNat ≤ 0x0aff) ||
  (0x0b00 ≤ c.toNat && c.toNat ≤ 0x0b7f) || (0x0b80 ≤ c.toNat && c.toNat ≤ 0x0bff) ||
  (0x0c00 ≤ c.toNat && c.toNat ≤ 0x0c7f) || (0x0c80 ≤ c.toNat && c.toNat ≤ 0x0cff) ||
  (0x0d00 ≤ c.toNat && c.toNat ≤ 0x0d7f)

/-- Spam pattern `/^[^a-zA-Z0-9\s…Indic…]+$/`: nonempty text made only of
characters outside the alphanumeric/whitespace/Indic classes. -/
def onlySpecialChars (cs : List Char) : Bool :=
  !cs.isEmpty && cs.all (fun c => !(isAsciiAlnum c || isJsWs c || isSpamIndicChar c))

/-- The spam-pattern stage: the disjunction of the five `spamPatterns`
regex tests (`/test{3,}/i` is substring `testtt`, `/asdf{2,}/i` is
substring `asdff`, `/qwerty/i` is substring `qwerty`). -/
def spamMatch (cs : List Char) : Bool :=
  hasRepeatRun cs || onlySpecialChars cs ||
  containsCIList (chars "testtt") cs ||
  containsCIList (chars "asdff") cs ||
  containsCIList (chars "qwerty") cs

/-- No line terminator between positions `a` (inclusive) and `b`
(exclusive): the stretch a regex `.*` must be able to cross. -/
def noLineTermBetween (cs : List Char) (a b : Nat) : Bool :=
  ((cs.drop a).take (b - a)).all (fun c => !isLineTerm c)

/-- SQL pattern 1:
`/(\b(SELECT|INSERT|UPDATE|DELETE|DROP|CREATE|ALTER|EXEC|EXECUTE)\b.*\b(FROM|INTO|TABLE|DATABASE)\b)/i`. -/
def sql1Match (cs : List Char) : Bool :=
  (List.range (cs.length + 1)).any (fun i =>
    ([chars "SELECT", chars "INSERT", chars "UPDATE", chars "DELETE", chars "DROP",
      chars "CREATE", chars "ALTER", chars "EXEC", chars "EXECUTE"]).any (fun k =>
      wordAtCI cs k i &&
      (List.range (cs.length + 1)).any (fun j =>
        decide (i + k.length ≤ j) &&
        noLineTermBetween cs (i + k.length) j &&
        ([chars "FROM", chars "INTO", chars "TABLE", chars "DATABASE"]).any
          (fun m => wordAtCI cs m j))))

/-- SQL pattern 2: `/(--|\bOR\b.*=.*\bOR\b|;\s*DROP)/i`. -/
def sql2Match (cs : List Char) : Bool :=
  containsList (chars "--") cs ||
  (List.range (cs.length + 1)).any (fun i =>
    wordAtCI cs (chars "OR") i &&
    (List.range (cs.length + 1)).any (fun k =>
      decide (i + 2 ≤ k) && decide (cs.getD k ' ' = '=') &&
      noLineTermBetween cs (i + 2) k &&
      (List.range (cs.length + 1)).any (fun j =>
        decide (k + 1 ≤ j) && noLineTermBetween cs (k + 1) j &&
        wordAtCI cs (chars "OR") j))) ||
  containsToks [Tok.lit (chars ";"), Tok.wsStar, Tok.litCI (chars "DROP")] cs

/-- SQL pattern 3: `/('\s*OR\s*'1'\s*=\s*'1)/i`. -/
def sql3Match (cs : List Char) : Bool :=
  containsToks
    [Tok.lit (chars "'"), Tok.wsStar, Tok.litCI (chars "OR"), Tok.wsStar,
     Tok.lit (chars "'1'"), Tok.wsStar, Tok.lit (chars "="), Tok.wsStar,
     Tok.lit (chars "'1")] cs

/-- The SQL-injection stage: disjunction of the three `sqlPatterns`. -/
def sqlMatch (cs : List Char) : Bool :=
  sql1Match cs || sql2Match cs || sql3Match cs

/-- The prompt-injection stage: disjunction of the six
`injectionPatterns`. -/
def injectionMatch (cs : List Char) : Bool :=
  containsToks [Tok.litCI (chars "ignore"), Tok.wsPlus,
    Tok.altCI [chars "previous", chars "all", chars "above"], Tok.wsPlus,
    Tok.litCI (chars "instructions")] cs ||
  containsToks [Tok.litCI (chars "you"), Tok.wsPlus, Tok.litCI (chars "are"),
    Tok.wsPlus, Tok.altCI [chars "now", chars "a"], Tok.wsPlus] cs ||
  containsToks [Tok.litCI (chars "system"), Tok.wsStar, Tok.lit (chars ":"),
    Tok.wsStar] cs ||
  containsToks [Tok.litCI (chars "[SYSTEM]")] cs ||
  containsToks [Tok.litCI (chars "disregard"), Tok.wsPlus,
    Tok.altCI [chars "previous", chars "all"]] cs ||
  containsToks [Tok.litCI (chars "forget"), Tok.wsPlus,
    Tok.altCI [chars "everything", chars "all", chars "previous"]] cs

/-- The offensive-content stage: disjunction of the three
`inappropriatePatterns`, each a `\b(word|…)\b` alternation under `/i`. -/
def inappropriateMatch (cs : List Char) : Bool :=
  (["fuck", "shit", "damn", "bitch", "ass", "sex", "porn", "xxx", "nsfw",
    "kill", "murder", "death", "suicide", "bomb", "weapon", "gun",
    "hack", "crack", "pirate", "steal", "cheat", "illegal"]).any
    (fun s => containsWordCI cs (chars s))

/-- The educational-keyword alternation groups carrying `\b…\b` and `/i`
(English and romanized Hindi). -/
def eduWordGroups : List (List String) :=
  [["lesson", "learn", "teach", "explain", "understand", "study", "quiz", "test",
    "exam", "practice"],
   ["topic", "subject", "concept", "theory", "example", "tutorial", "guide", "course"],
   ["education", "knowledge", "skill", "training", "instruction", "demonstration"],
   ["what", "how", "why", "when", "where", "who", "which"],
   ["interactive", "diagram", "visual", "step", "chapter", "section", "activity"],
   ["question", "answer", "solve", "problem", "exercise", "challenge"],
   ["math", "science", "history", "english", "language", "literature", "art", "music"],
   ["physics", "chemistry", "biology", "geography", "social", "computer", "technology"],
   ["create", "generate", "make", "build", "develop", "design"],
   ["paath", "seekhna", "sikhana", "samjhana", "adhyayan", "quiz", "pariksha", "abhyas"],
   ["vishay", "avdharna", "siddhant", "udaharan", "tutorial", "pathyakram"],
   ["shiksha", "gyaan", "kaushal", "prashikshan"],
   ["kya", "kaise", "kyon", "kab", "kahan", "kaun"],
   ["ganit", "vigyan", "itihaas", "bhoogol", "bhautiki", "rasayan", "jeevvigyan"]]

/-- The educational-keyword alternation groups that are plain substring
alternations (Indic and Arabic scripts, no `\b`, no `/i`). -/
def eduSubstrGroups : List (List String) :=
  [["पाठ", "सीखना", "सिखाना", "समझाना", "अध्ययन", "क्विज़", "परीक्षा", "अभ्यास"],
   ["विषय", "अवधारणा", "सिद्धांत", "उदाहरण", "ट्यूटोरियल", "पाठ्यक्रम"],
   ["शिक्षा", "ज्ञान", "कौशल", "प्रशिक्षण"],
   ["क्या", "कैसे", "क्यों", "कब", "कहाँ", "कौन"],
   ["गणित", "विज्ञान", "इतिहास", "भूगोल", "भौतिकी", "रसायन", "जीवविज्ञान"],
   ["பாடம்", "கற்க", "கற்பிக்க", "விளக்க", "புரிந்து", "படிப்பு", "வினாடி", "தேர்வு", "பயிற்சி"],
   ["தலைப்பு", "பாடம்", "கருத்து", "கோட்பாடு", "உதாரணம்"],
   ["கல்வி", "அறிவு", "திறன்", "பயிற்சி"],
   ["என்ன", "எப்படி", "ஏன்", "எப்போது", "எங்கே"],
   ["கணிதம்", "அறிவியல்", "வரலாறு", "புவியியல்", "இயற்பியல்", "வேதியியல்"],
   ["పాఠం", "నేర్చుకో", "బోధించు", "వివరించు", "అధ్యయనం", "క్విజ్", "పరీక్ష", "అభ్యాసం"],
   ["విషయం", "భావన", "సిద్ధాంతం", "ఉదాహరణ", "శిక్షణ"],
   ["విద్య", "జ్ఞానం", "నైపుణ్యం", "శిక్షణ"],
   ["ఏమిటి", "ఎలా", "ఎందుకు", "ఎప్పుడు", "ఎక్కడ"],
   ["గణితం", "శాస్త్రం", "చరిత్ర", "భౌగోళికం", "భౌతిక", "రసాయన"],
   ["धडा", "शिकणे", "शिकवणे", "समजावणे", "अभ्यास", "क्विझ", "परीक्षा"],
   ["विषय", "संकल्पना", "सिद्धांत", "उदाहरण", "मार्गदर्शन"],
   ["शिक्षण", "ज्ञान", "कौशल्य", "प्रशिक्षण"],
   ["काय", "कसे", "का", "केव्हा", "कुठे"],
   ["गणित", "विज्ञान", "इतिहास", "भूगोल", "भौतिकशास्त्र"],
   ["পাঠ", "শেখা", "শেখানো", "ব্যাখ্যা", "অধ্যয়ন", "কুইজ", "পরীক্ষা", "অনুশীলন"],
   ["বিষয়", "ধারণা", "তত্ত্ব", "উদাহরণ", "টিউটোরিয়াল"],
   ["শিক্ষা", "জ্ঞান", "দক্ষতা", "প্রশিক্ষণ"],
   ["কী", "কিভাবে", "কেন", "কখন", "কোথায়"],
   ["গণিত", "বিজ্ঞান", "ইতিহাস", "ভূগোল", "পদার্থবিজ্ঞান", "রসায়ন"],
   ["પાઠ", "શીખવું", "શીખવવું", "સમજાવો", "અભ્યાસ", "ક્વિઝ", "પરીક્ષા"],
   ["વિષય", "ખ્યાલ", "સિદ્ધાંત", "ઉદાહરણ"],
   ["શિક્ષણ", "જ્ઞાન", "કુશળતા", "તાલીમ"],
   ["શું", "કેવી રીતે", "શા માટે", "ક્યારે", "ક્યાં"],
   ["ગણિત", "વિજ્ઞાન", "ઇતિહાસ", "ભૂગોળ", "ભૌતિકશાસ્ત્ર"],
   ["ಪಾಠ", "ಕಲಿಯಿರಿ", "ಕಲಿಸಿ", "ವಿವರಿಸಿ", "ಅಧ್ಯಯನ", "ಕ್ವಿಜ್", "ಪರೀಕ್ಷೆ"],
   ["ವಿಷಯ", "ಪರಿಕಲ್ಪನೆ", "ಸಿದ್ಧಾಂತ", "ಉದಾಹರಣೆ"],
   ["ಶಿಕ್ಷಣ", "ಜ್ಞಾನ", "ಕೌಶಲ್ಯ", "ತರಬೇತಿ"],
   ["ಏನು", "ಹೇಗೆ", "ಏಕೆ", "ಯಾವಾಗ", "ಎಲ್ಲಿ"],
   ["ಗಣಿತ", "ವಿಜ್ಞಾನ", "ಇತಿಹಾಸ", "ಭೂಗೋಳ", "ಭೌತಶಾಸ್ತ್ರ"],
   ["പാഠം", "പഠിക്കുക", "പഠിപ്പിക്കുക", "വിശദീകരിക്കുക", "പഠനം", "ക്വിസ്", "പരീക്ഷ"],
   ["വിഷയം", "സങ്കല്പം", "സിദ്ധാന്തം", "ഉദാഹരണം"],
   ["വിദ്യാഭ്യാസം", "അറിവ്", "കഴിവ്", "പരിശീലനം"],
   ["എന്ത്", "എങ്ങനെ", "എന്തുകൊണ്ട്", "എപ്പോൾ", "എവിടെ"],
   ["ഗണിതം", "ശാസ്ത്രം", "ചരിത്രം", "ഭൂമിശാസ്ത്രം", "ഭൗതികം"],
   ["ਪਾਠ", "ਸਿੱਖਣਾ", "ਸਿਖਾਉਣਾ", "ਸਮਝਾਉਣਾ", "ਅਧਿਐਨ", "ਕੁਇਜ਼", "ਪ੍ਰੀਖਿਆ"],
   ["ਵਿਸ਼ਾ", "ਧਾਰਨਾ", "ਸਿਧਾਂਤ", "ਉਦਾਹਰਨ"],
   ["ਸਿੱਖਿਆ", "ਗਿਆਨ", "ਹੁਨਰ", "ਸਿਖਲਾਈ"],
   ["ਕੀ", "ਕਿਵੇਂ", "ਕਿਉਂ", "ਕਦੋਂ", "ਕਿੱਥੇ"],
   ["ਗਣਿਤ", "ਵਿਗਿਆਨ", "ਇਤਿਹਾਸ", "ਭੂਗੋਲ", "ਭੌਤਿਕ"],
   ["سبق", "سیکھنا", "سکھانا", "سمجھانا", "مطالعہ", "کوئز", "امتحان"],
   ["موضوع", "تصور", "نظریہ", "مثال"],
   ["تعلیم", "علم", "مہارت", "تربیت"],
   ["کیا", "کیسے", "کیوں", "کب", "کہاں"],
   ["ریاضی", "سائنس", "تاریخ", "جغرافیہ", "طبیعیات"]]

/-- `educationalKeywords.some(pattern => pattern.test(trimmedPrompt))`. -/
def hasEduKeyword (cs : List Char) : Bool :=
  eduWordGroups.any (fun g => g.any (fun s => containsWordCI cs (chars s))) ||
  eduSubstrGroups.any (fun g => g.any (fun s => containsList (chars s) cs))

/-- The Indic/Arabic script-presence test used for the substantive-content
fallback and the gibberish gate. -/
def hasIndicScript (cs : List Char) : Bool :=
  cs.any (fun c =>
    isSpamIndicChar c || (0x0600 ≤ c.toNat && c.toNat ≤ 0x06ff))

/-- `/\b[A-Z][a-z]+/` — a capitalized proper noun. -/
def properNounMatch (cs : List Char) : Bool :=
  (List.range (cs.length + 1)).any (fun i =>
    (decide (i = 0) || !isWordChar (cs.getD (i - 1) ' ')) &&
    (decide ('A' ≤ cs.getD i ' ') && decide (cs.getD i ' ' ≤ 'Z')) &&
    (decide ('a' ≤ cs.getD (i + 1) ' ') && decide (cs.getD (i + 1) ' ' ≤ 'z')))

/-- A small helper for termination of `splitWsAux`. -/
theorem length_dropWhile_le (p : Char → Bool) (l : List Char) :
    (l.dropWhile p).length ≤ l.length := by
  induction l with
  | nil => simp [List.dropWhile]
  | cons c cs ih =>
    simp only [List.dropWhile]
    split
    · exact Nat.le_succ_of_le ih
    · simp

/-- `split(/\s+/)` worker: accumulate the current word (reversed).  The
fuel argument makes the recursion structural; each step consumes at least
one character, so fuel equal to the input length never runs out. -/
def splitWsAux : Nat → List Char → List Char → List (List Char)
  | 0, _, cur => [cur.reverse]
  | _, [], cur => [cur.reverse]
  | fuel + 1, c :: rest, cur =>
    if isJsWs c then cur.reverse :: splitWsAux fuel (rest.dropWhile isJsWs) []
    else splitWsAux fuel rest (c :: cur)

/-- JS `String.prototype.split(/\s+/)`. -/
def splitWsJS (cs : List Char) : List (List Char) :=
  splitWsAux cs.length cs []

/-- Word count via `split(/\s+/).length`. -/
def wordCount (cs : List Char) : Nat :=
  (splitWsJS cs).length

/-- The substantive-content fallback of stage 10. -/
def hasSubstantiveContent (cs : List Char) : Bool :=
  properNounMatch cs || cs.any isAsciiDigit ||
  decide (4 ≤ wordCount cs) || hasIndicScript cs

/-- English consonant for the gibberish heuristic (`/i`). -/
def isConsonantCh (c : Char) : Bool :=
  (chars "bcdfghjklmnpqrstvwxyz").contains (asciiToLower c)

/-- English vowel for the gibberish heuristic (`/i`). -/
def isVowelCh (c : Char) : Bool :=
  (chars "aeiou").contains (asciiToLower c)

/-- Stage 11: some word of length ≥ 4 has a run of ≥ 6 consonants or ≥ 5
vowels. -/
def hasGibberish (cs : List Char) : Bool :=
  (splitWsJS cs).any (fun word =>
    decide (4 ≤ jsLenList word) &&
    (hasRunOf isConsonantCh 6 word || hasRunOf isVowelCh 5 word))

/-- The verdict returned by the admission filter. -/
structure PromptVerdict where
  isValid : Bool
  error : Option String
  deriving Repr, DecidableEq

/-- `validateLessonPrompt` from the source: the ordered, short-circuiting
chain of admission checks. -/
def validateLessonPrompt (prompt : String) : PromptVerdict :=
  if prompt = "" then
    ⟨false, some "Please enter a valid prompt"⟩
  else
    let t := trimList prompt.data
    if jsLenList t < 10 then
      ⟨false, some "Please enter a more detailed prompt (at least 10 characters)"⟩
    else if 1000 < jsLenList t then
      ⟨false, some "Prompt is too long (maximum 1000 characters)"⟩
    else if t.any isInvisibleChar then
      ⟨false, some "Prompt contains invisible characters. Please use normal text."⟩
    else if 10 < emojiCount t then
      ⟨false, some "Too many emojis in prompt. Please use more descriptive text."⟩
    else if spamMatch t then
      ⟨false, some "Please enter a valid lesson-related prompt"⟩
    else if sqlMatch t then
      ⟨false, some "Invalid characters or patterns detected in prompt"⟩
    else if injectionMatch t then
      ⟨false, some "Invalid prompt format detected"⟩
    else if inappropriateMatch t then
      ⟨false, some "Please enter appropriate, educational content only"⟩
    else if !hasEduKeyword t && !hasSubstantiveContent t then
      ⟨false, some "Please enter a valid prompt related to lessons, education, or learning topics"⟩
    else if !hasIndicScript t && hasGibberish t then
      ⟨false, some "Please enter a valid prompt with real words"⟩
    else
      ⟨true, none⟩

/-! ## Static validator (src/lib/types.ts, `validateTypeScriptCode`) -/

/-- Rule 13 runs the real TypeScript parser (`ts.createSourceFile`) over
the code; that external library is modelled as an oracle mapping the
source text to the list of diagnostics the rule would push (including the
message of a caught exception). -/
structure TsEnv where
  errorsOf : String → List String

/-- The TypeScript-parser oracle that reports no diagnostics. -/
def tsQuiet : TsEnv :=
  ⟨fun _ => []⟩

/-- The verdict of the static validator. -/
structure CodeVerdict where
  isValid : Bool
  errors : List String
  deriving Repr, DecidableEq

/-- Rule 2: required React component structure. -/
def rule2Errors (code : String) : List String :=
  if containsStr code "export default function" then []
  else ["Missing default export function (must use: export default function ComponentName())"]

/-- Try to match `/export default function\s+(\w+)/` at the head of the
suffix `cs`, returning the captured component name. -/
def compNameAt (cs : List Char) : Option (List Char) :=
  if (chars "export default function").isPrefixOf cs then
    let rest := cs.drop 23
    let w := headRunLen isJsWs rest
    if w = 0 then none
    else
      let nm := (rest.drop w).takeWhile isWordChar
      if nm.isEmpty then none else some nm
  else none

/-- `code.match(/export default function\s+(\w+)/)`: leftmost captured
component name, if any. -/
def componentNameOf (cs : List Char) : Option (List Char) :=
  findFirstSuffix compNameAt cs

/-- Rule 3: component name must start with an uppercase letter. -/
def rule3Errors (code : String) : List String :=
  match componentNameOf code.data with
  | none => []
  | some nm =>
    if decide ('A' ≤ nm.headD ' ') && decide (nm.headD ' ' ≤ 'Z') then []
    else ["Component name \"" ++ String.mk nm ++ "\" must start with uppercase letter"]

/-- Rule 4: proper JSX return. -/
def rule4Errors (code : String) : List String :=
  if containsStr code "return (" || containsStr code "return(" ||
      containsStr code "return <" then []
  else ["Missing return statement with JSX"]

/-- Rule 5: JSX structure (opening tokens need closing tokens). -/
def rule5Errors (code : String) : List String :=
  let hasOpeningJSX := containsStr code "<" && containsStr code ">"
  let hasClosingJSX := containsStr code "</"
  if hasOpeningJSX && !hasClosingJSX then ["JSX elements not properly closed"] else []

/-- Rule 6 dangerous patterns, in source order, each as the test of its
regex together with its message. -/
def rule6Errors (code : String) : List String :=
  let cs := code.data
  (if containsToks [Tok.lit (chars "eval"), Tok.wsStar, Tok.lit (chars "(")] cs then
    ["Contains dangerous eval() function"] else []) ++
  (if containsToks [Tok.lit (chars "Function"), Tok.wsStar, Tok.lit (chars "(")] cs then
    ["Contains dangerous Function() constructor"] else []) ++
  (if containsToks [Tok.lit (chars "innerHTML"), Tok.wsStar, Tok.lit (chars "=")] cs then
    ["Contains dangerous innerHTML (XSS risk)"] else []) ++
  (if containsStr code "dangerouslySetInnerHTML" then
    ["Contains dangerouslySetInnerHTML (use with caution)"] else []) ++
  (if containsStr code "__proto__" then
    ["Contains __proto__ manipulation"] else []) ++
  (if containsStr code "document.write" then
    ["Contains document.write (deprecated)"] else [])

/-- Scan the lazy capture `(.+?)['"]` of the import regex: consume
non-line-terminator characters until the first position (after at least
one consumed character) holding a quote; return the captured path and the
number of characters consumed including the closing quote. -/
def importPathScan (acc : List Char) : List Char → Option (List Char × Nat)
  | [] => none
  | c :: rest =>
    if !acc.isEmpty && (c = '"' || c = '\'') then some (acc.reverse, acc.length + 1)
    else if isLineTerm c then none
    else importPathScan (c :: acc) rest

/-- Match `from\s+['"](.+?)['"]` at the head of `u`; returns the captured
path and the consumed length. -/
def importAfterFrom (u : List Char) : Option (List Char × Nat) :=
  if (chars "from").isPrefixOf u then
    let v := u.drop 4
    let w2 := headRunLen isJsWs v
    if w2 = 0 then none
    else
      match v.drop w2 with
      | [] => none
      | q :: tail =>
        if q = '"' || q = '\'' then
          match importPathScan [] tail with
          | some (p, n) => some (p, 4 + w2 + 1 + n)
          | none => none
        else none
  else none

/-- Resolve the lazy `.*?` of the import regex: try successive positions
left to right (the dot cannot cross a line terminator) until
`from\s+['"](.+?)['"]` matches. -/
def importSearchFrom : List Char → Option (List Char × Nat)
  | [] => none
  | c :: rest =>
    match importAfterFrom (c :: rest) with
    | some r => some r
    | none =>
      if isLineTerm c then none
      else
        match importSearchFrom rest with
        | some (p, n) => some (p, n + 1)
        | none => none

/-- Match `/import\s+.*?from\s+['"](.+?)['"]/` at the head of `cs`
(greedy `\s+`, then the lazy search); returns the captured path and the
total match length. -/
def importMatchAt (cs : List Char) : Option (List Char × Nat) :=
  if (chars "import").isPrefixOf cs then
    let rest := cs.drop 6
    let w := headRunLen isJsWs rest
    if w = 0 then none
    else
      match importSearchFrom (rest.drop w) with
      | some (p, n) => some (p, 6 + w + n)
      | none => none
  else none

/-- `matchAll` of the import regex: leftmost matches, resuming after each
match.  The fuel argument makes the recursion structural; each step
consumes at least one character, so fuel equal to the input length never
runs out. -/
def extractImportsAux : Nat → List Char → List (List Char)
  | 0, _ => []
  | _, [] => []
  | fuel + 1, c :: rest =>
    match importMatchAt (c :: rest) with
    | some (p, n) => p :: extractImportsAux fuel (rest.drop (n - 1))
    | none => extractImportsAux fuel rest

/-- The import paths captured by rule 7's `matchAll`. -/
def extractImports (code : String) : List String :=
  (extractImportsAux code.data.length code.data).map String.mk

/-- Rule 7: unsupported (non-React) import statements. -/
def rule7Errors (code : String) : List String :=
  (extractImports code).foldl
    (fun acc p =>
      if !containsStr p "react" && p ≠ "react" then
        acc ++ ["Contains unsupported import: \"" ++ p ++ "\" (only React imports allowed)"]
      else acc) []

/-- Occurrence count of one character. -/
def countChar (c : Char) (cs : List Char) : Nat :=
  (cs.filter (fun x => x = c)).length

/-- Rule 8: balanced braces, parentheses and brackets, with the counted
values interpolated into the messages. -/
def rule8Errors (code : String) : List String :=
  let cs := code.data
  let ob := countChar (Char.ofNat 123) cs
  let cb := countChar (Char.ofNat 125) cs
  let op := countChar '(' cs
  let cp := countChar ')' cs
  let ok := countChar '[' cs
  let ck := countChar ']' cs
  (if ob ≠ cb then
    ["Unbalanced braces (" ++ toString ob ++ " open, " ++ toString cb ++ " close)"] else []) ++
  (if op ≠ cp then
    ["Unbalanced parentheses (" ++ toString op ++ " open, " ++ toString cp ++ " close)"] else []) ++
  (if ok ≠ ck then
    ["Unbalanced brackets (" ++ toString ok ++ " open, " ++ toString ck ++ " close)"] else [])

/-- Rule 9: the `"use client"` directive must appear. -/
def rule9Errors (code : String) : List String :=
  if containsStr code "\"use client\"" || containsStr code "'use client'" then []
  else ["Missing \"use client\" directive at the top"]

/-- Rule 10: React hooks require a React import. -/
def rule10Errors (code : String) : List String :=
  let cs := code.data
  if (["useState", "useEffect", "useMemo", "useCallback", "useRef", "useContext"]).any
      (fun h => containsWord cs (chars h)) then
    if containsStr code "from \"react\"" || containsStr code "from 'react'" then []
    else ["Uses React hooks but missing React import"]
  else []

/-- `code.split('\n')`. -/
def splitNl : List Char → List (List Char)
  | [] => [[]]
  | c :: cs =>
    if c = '\n' then [] :: splitNl cs
    else
      match splitNl cs with
      | [] => [[c]]
      | g :: gs => (c :: g) :: gs

/-- The fixed lexicon of commonly-miswritten collection identifiers. -/
def commonArrayVars : List String :=
  ["questions", "items", "cards", "steps", "lessons", "data", "options",
   "choices", "exercises"]

/-- `/\b(const|let|var)\s+/` on one line. -/
def lineHasDeclKw (line : List Char) : Bool :=
  ([chars "const", chars "let", chars "var"]).any
    (fun k => containsToksAtWordStart [Tok.lit k, Tok.wsPlus] line)

/-- ``new RegExp(`\\b${varName}\\s*=`)`` on one line. -/
def lineHasVarAssign (v : String) (line : List Char) : Bool :=
  containsToksAtWordStart [Tok.lit (chars v), Tok.wsStar, Tok.lit (chars "=")] line

/-- ``new RegExp(`\\b${varName}\\.[a-zA-Z_]`)`` on one line. -/
def lineHasPropAccess (v : String) (line : List Char) : Bool :=
  containsToksAtWordStart
    [Tok.lit (chars v), Tok.lit (chars "."),
     Tok.cls (fun c => ('a' ≤ c && c ≤ 'z') || ('A' ≤ c && c ≤ 'Z') || c = '_')] line

/-- ``new RegExp(`\\b${varName}\\[`)`` on one line. -/
def lineHasArrAccess (v : String) (line : List Char) : Bool :=
  containsToksAtWordStart [Tok.lit (chars v), Tok.lit (chars "[")] line

/-- A line that declares `v` (`const/let/var` keyword plus a `v =`
assignment). -/
def declLineP (v : String) (line : List Char) : Bool :=
  lineHasDeclKw line && lineHasVarAssign v line

/-- A line that uses `v` (property or array access, not a comment, not
the declaration line itself). -/
def useLineP (v : String) (line : List Char) : Bool :=
  let tl := trimList line
  !(chars "//").isPrefixOf tl && !(chars "/*").isPrefixOf tl &&
  (lineHasPropAccess v line || lineHasArrAccess v line) && !declLineP v line

/-- Rule 11: temporal-dead-zone heuristic over the fixed identifier
lexicon. -/
def rule11Errors (code : String) : List String :=
  let lines := splitNl code.data
  commonArrayVars.foldl
    (fun acc v =>
      match lines.findIdx? (declLineP v), lines.findIdx? (useLineP v) with
      | some d, some u =>
        if u < d then
          acc ++ ["Variable \"" ++ v ++ "\" is used at line " ++ toString (u + 1) ++
            " before declaration at line " ++ toString (d + 1) ++ " (TDZ error)"]
        else acc
      | _, _ => acc) []

/-- Match `/useState\s*\(([^)]+)\)/` at the head of the suffix `cs`,
returning the captured initializer text. -/
def useStateCapAt (cs : List Char) : Option (List Char) :=
  if (chars "useState").isPrefixOf cs then
    let rest := cs.drop 8
    let w := headRunLen isJsWs rest
    match rest.drop w with
    | [] => none
    | c :: tail =>
      if c = '(' then
        let init := tail.takeWhile (fun x => x ≠ ')')
        if init.isEmpty then none
        else if (tail.drop init.length).isEmpty then none
        else some init
      else none
  else none

/-- `line.match(/useState\s*\(([^)]+)\)/)`: leftmost captured initializer
on the line. -/
def lineUseStateCap (line : List Char) : Option (List Char) :=
  findFirstSuffix useStateCapAt line

/-- Rule 12: `useState` initializers referencing a lexicon identifier
declared only on a later line. -/
def rule12Errors (code : String) : List String :=
  let lines := splitNl code.data
  (List.range lines.length).foldl
    (fun acc i =>
      match lineUseStateCap (lines.getD i []) with
      | none => acc
      | some init =>
        commonArrayVars.foldl
          (fun acc2 v =>
            if containsWord init (chars v) then
              match lines.findIdx? (declLineP v) with
              | some d =>
                if i < d then
                  acc2 ++ ["useState at line " ++ toString (i + 1) ++ " references \"" ++
                    v ++ "\" before it's declared at line " ++ toString (d + 1)]
                else acc2
              | none => acc2
            else acc2) acc) []

/-- Rule 13: the TypeScript-parser pass, via the oracle. -/
def rule13Errors (env : TsEnv) (code : String) : List String :=
  env.errorsOf code

/-- `validateTypeScriptCode` from the source: the empty check returns
early; every other rule appends its violations to the shared list, and
the verdict is valid iff the list stayed empty. -/
def validateTypeScriptCode (env : TsEnv) (code : String) : CodeVerdict :=
  if code = "" || (trimList code.data).isEmpty then
    ⟨false, ["Code is empty"]⟩
  else
    let errs :=
      rule2Errors code ++ rule3Errors code ++ rule4Errors code ++ rule5Errors code ++
      rule6Errors code ++ rule7Errors code ++ rule8Errors code ++ rule9Errors code ++
      rule10Errors code ++ rule11Errors code ++ rule12Errors code ++ rule13Errors env code
    ⟨errs.isEmpty, errs⟩

/-! ## Generation orchestrator (src/unnamed/part_001, `generateLesson`) -/

/-- The repair ceiling. -/
def MAX_RETRIES : Nat := 3

/-- Global replace of `new RegExp(lit + "\n?")` by the empty string:
remove each occurrence of the nonempty literal `l0 :: lrest` together
with an optional following newline, resuming after each match. -/
def stripLitNl (l0 : Char) (lrest : List Char) : Nat → List Char → List Char
  | 0, cs => cs
  | _, [] => []
  | fuel + 1, c :: rest =>
    if (l0 :: lrest).isPrefixOf (c :: rest) then
      let skip := lrest.length +
        (if (rest.drop lrest.length).headD 'A' = '\n' then 1 else 0)
      stripLitNl l0 lrest fuel (rest.drop skip)
    else c :: stripLitNl l0 lrest fuel rest

/-- String-level wrapper for `stripLitNl` (fuel equal to the input
length never runs out: each step consumes at least one character). -/
def stripLitStr (lit : String) (cs : List Char) : List Char :=
  match lit.data with
  | [] => cs
  | l0 :: lrest => stripLitNl l0 lrest cs.length cs

/-- `^hdr:?\n*` under `/i` (no `g`): strip one leading header phrase,
an optional colon and any following newlines. -/
def stripHeaderCI (hdr : String) (cs : List Char) : List Char :=
  if ciPrefixOf hdr.data cs then
    let r := cs.drop hdr.data.length
    let r := if r.headD 'A' = ':' then r.tail else r
    r.dropWhile (fun c => c = '\n')
  else cs

/-- The markdown-fence cleanup applied to a raw draft from the code
model (`generateLessonCode`). -/
def cleanDraft (raw : String) : String :=
  String.mk (trimList
    (stripLitStr "```"
      (stripLitStr "```tsx"
        (stripLitStr "```typescript" raw.data))))

/-- The more aggressive cleanup applied to a raw repair response
(`validateAndFixCode`). -/
def cleanFix (raw : String) : String :=
  String.mk (trimList
    (stripHeaderCI "Fixed code"
      (stripHeaderCI "Here's the fixed code"
        (stripLitStr "```"
          (stripLitStr "```jsx"
            (stripLitStr "```tsx"
              (stripLitStr "```typescript" raw.data)))))))

/-- The generative model, as oracles: title responses per generation
cycle, raw code drafts per attempt number, raw repair responses per
attempt number. -/
structure GenOracles where
  title : Nat → String
  draftRaw : Nat → String
  fixRaw : Nat → String

/-- Result of `validateAndFixCode`. -/
structure VfxOut where
  isValid : Bool
  code : String
  errors : List String
  deriving Repr, DecidableEq

/-- `validateAndFixCode` from the source, instrumented (second component)
with the number of code-model calls it makes (0 or 1). -/
def validateAndFixCode (env : TsEnv) (o : GenOracles) (code : String)
    (attempt : Nat) : VfxOut × Nat :=
  let v := validateTypeScriptCode env code
  if v.isValid then (⟨true, code, []⟩, 0)
  else if attempt < MAX_RETRIES then
    let fixed := cleanFix (o.fixRaw attempt)
    let rv := validateTypeScriptCode env fixed
    (⟨rv.isValid, fixed, rv.errors⟩, 1)
  else (⟨false, code, v.errors⟩, 0)

/-- Result of `generateLesson`. -/
structure GenResult where
  success : Bool
  code : Option String
  title : Option String
  error : Option String
  deriving Repr, DecidableEq

/-- The numbered error list interpolated into the failure message. -/
def numberedJoin (errs : List String) : String :=
  String.intercalate "\n" (errs.enum.map (fun p => toString (p.1 + 1) ++ ". " ++ p.2))

/-- The terminal failure message after exhausting the ceiling. -/
def failMsg (errs : List String) : String :=
  "❌ Code validation failed after " ++ toString MAX_RETRIES ++
  " attempts.\n\nValidation Errors:\n" ++ numberedJoin errs ++
  "\n\nPlease try again with a clearer prompt."

/-- The message for a final-check failure. -/
def critMsg (errs : List String) : String :=
  "Critical validation error: " ++ String.intercalate ", " errs

/-- Worker for `generateLesson`, structurally recursive on a fuel
argument.  The recursion in the source is guarded by
`retryCount < MAX_RETRIES - 1`, so its depth is at most `MAX_RETRIES`;
starting the fuel there makes the zero case unreachable. -/
def generateLessonAux (env : TsEnv) (o : GenOracles) :
    Nat → Nat → GenResult × Nat
  | 0, _ => (⟨false, none, none, none⟩, 0)
  | fuel + 1, retryCount =>
    let title := o.title retryCount
    let draft := cleanDraft (o.draftRaw (retryCount + 1))
    let (v, fixCalls) := validateAndFixCode env o draft (retryCount + 1)
    if !v.isValid then
      if retryCount < MAX_RETRIES - 1 then
        let (r, n) := generateLessonAux env o fuel (retryCount + 1)
        (r, 1 + fixCalls + n)
      else
        (⟨false, none, none, some (failMsg v.errors)⟩, 1 + fixCalls)
    else
      let finalCheck := validateTypeScriptCode env v.code
      if !finalCheck.isValid then
        (⟨false, none, none, some (critMsg finalCheck.errors)⟩, 1 + fixCalls)
      else
        (⟨true, some v.code, some title, none⟩, 1 + fixCalls)

/-- `generateLesson` from the source (the non-throwing execution path),
instrumented (second component) with the total number of code-generation
model calls: one per draft plus one per repair call. -/
def generateLesson (env : TsEnv) (o : GenOracles) (retryCount : Nat) :
    GenResult × Nat :=
  generateLessonAux env o MAX_RETRIES retryCount

/-! ## Compilation endpoint (src/unnamed/part_003, `POST`) -/

/-- A quote character, the class `["']`. -/
def isQuote (c : Char) : Bool :=
  c = '"' || c = '\''

/-- Generic global regex replace: `m` matches a pattern at the head of a
suffix, returning the match length (always ≥ 1 for the patterns used
here) and the replacement text; scanning resumes after each match. -/
def replaceAllAux (m : List Char → Option (Nat × List Char)) :
    Nat → List Char → List Char
  | 0, cs => cs
  | _, [] => []
  | fuel + 1, c :: rest =>
    match m (c :: rest) with
    | some (n, rep) => rep ++ replaceAllAux m fuel (rest.drop (n - 1))
    | none => c :: replaceAllAux m fuel rest

/-- Entry point for `replaceAllAux` (fuel equal to the input length never
runs out: each step consumes at least one character). -/
def replaceAll (m : List Char → Option (Nat × List Char)) (cs : List Char) :
    List Char :=
  replaceAllAux m cs.length cs

/-- Match `/["']?use\s+client["']?;?\s*/i` at the head of the suffix,
returning the match length. -/
def ucAnyAt (cs : List Char) : Option (Nat × List Char) :=
  let q1 := if isQuote (cs.headD 'A') then 1 else 0
  let r1 := cs.drop q1
  if ciPrefixOf (chars "use") r1 then
    let r2 := r1.drop 3
    let w := headRunLen isJsWs r2
    if w = 0 then none
    else
      let r3 := r2.drop w
      if ciPrefixOf (chars "client") r3 then
        let r4 := r3.drop 6
        let q2 := if isQuote (r4.headD 'A') then 1 else 0
        let r5 := r4.drop q2
        let s := if r5.headD 'A' = ';' then 1 else 0
        let r6 := r5.drop s
        some (q1 + 3 + w + 6 + q2 + s + headRunLen isJsWs r6, [])
      else none
  else none

/-- Match `/["']use client["'];?\s*$/i` at a line start (the `^…$` of the
`gim` pattern), returning the match length; the trailing `\s*` extends as
far as it can while leaving the following position at a line end. -/
def uc2MatchAt (cs : List Char) : Option Nat :=
  if isQuote (cs.headD 'A') then
    let r1 := cs.drop 1
    if ciPrefixOf (chars "use client") r1 then
      let r2 := r1.drop 10
      if isQuote (r2.headD 'A') then
        let r3 := r2.drop 1
        let s := if r3.headD 'A' = ';' then 1 else 0
        let r4 := r3.drop s
        let w := headRunLen isJsWs r4
        match ((List.range (w + 1)).reverse.find? (fun e =>
            (r4.drop e).isEmpty || isLineTerm ((r4.drop e).headD 'A'))) with
        | some e => some (1 + 10 + 1 + s + e)
        | none => none
      else none
    else none
  else none

/-- The full `gim` replace of `/^["']use client["'];?\s*$/` by the empty
string: scan tracking whether the current position is a line start. -/
def uc2Go : Nat → List Char → Bool → List Char
  | 0, cs, _ => cs
  | _, [], _ => []
  | fuel + 1, c :: rest, atStart =>
    if atStart then
      match uc2MatchAt (c :: rest) with
      | some n =>
        uc2Go fuel (rest.drop (n - 1)) (isLineTerm (((c :: rest).take n).getLastD 'A'))
      | none => c :: uc2Go fuel rest (isLineTerm c)
    else c :: uc2Go fuel rest (isLineTerm c)

/-- The anchored `/^[\s\n]*use\s+client[^;]*;?\s*/i` replace (the `^` can
only match at position 0, so at most one strip happens). -/
def uc3Strip (cs : List Char) : List Char :=
  let w0 := headRunLen isJsWs cs
  let r1 := cs.drop w0
  if ciPrefixOf (chars "use") r1 then
    let r2 := r1.drop 3
    let w2 := headRunLen isJsWs r2
    if w2 = 0 then cs
    else
      let r3 := r2.drop w2
      if ciPrefixOf (chars "client") r3 then
        let r4 := r3.drop 6
        let body := r4.takeWhile (fun c => c ≠ ';')
        let r5 := r4.drop body.length
        let s := if r5.headD 'A' = ';' then 1 else 0
        let r6 := r5.drop s
        r6.drop (headRunLen isJsWs r6)
      else cs
  else cs

/-- Match `from\s+["'][^"']+["'];?\s*` at the head of `u` (pass used by
the compiler's first import-removal regex). -/
def impAfterFrom2 (u : List Char) : Option Nat :=
  if (chars "from").isPrefixOf u then
    let v := u.drop 4
    let w2 := headRunLen isJsWs v
    if w2 = 0 then none
    else
      match v.drop w2 with
      | [] => none
      | q :: tail =>
        if isQuote q then
          let path := tail.takeWhile (fun c => !isQuote c)
          if path.isEmpty then none
          else
            match tail.drop path.length with
            | [] => none
            | _ :: r2 =>
              let s := if r2.headD 'A' = ';' then 1 else 0
              let r3 := r2.drop s
              some (4 + w2 + 1 + path.length + 1 + s + headRunLen isJsWs r3)
        else none
  else none

/-- Resolve the lazy `[\s\S]*?` (it may cross newlines): first position
where the tail pattern completes. -/
def impSearchFrom2 : List Char → Option Nat
  | [] => none
  | c :: rest =>
    match impAfterFrom2 (c :: rest) with
    | some n => some n
    | none =>
      match impSearchFrom2 rest with
      | some n => some (n + 1)
      | none => none

/-- Match `/import\s+[\s\S]*?from\s+["'][^"']+["'];?\s*/` at the head of
the suffix. -/
def impMatchAt2 (cs : List Char) : Option (Nat × List Char) :=
  if (chars "import").isPrefixOf cs then
    let rest := cs.drop 6
    let w := headRunLen isJsWs rest
    if w = 0 then none
    else
      match impSearchFrom2 (rest.drop w) with
      | some n => some (6 + w + n, [])
      | none => none
  else none

/-- Match `/import\s+["'][^"']+["'];?\s*/` (side-effect import form) at
the head of the suffix. -/
def impMatchAt3 (cs : List Char) : Option (Nat × List Char) :=
  if (chars "import").isPrefixOf cs then
    let rest := cs.drop 6
    let w := headRunLen isJsWs rest
    if w = 0 then none
    else
      match rest.drop w with
      | [] => none
      | q :: tail =>
        if isQuote q then
          let path := tail.takeWhile (fun c => !isQuote c)
          if path.isEmpty then none
          else
            match tail.drop path.length with
            | [] => none
            | _ :: r2 =>
              let s := if r2.headD 'A' = ';' then 1 else 0
              let r3 := r2.drop s
              some (6 + w + 1 + path.length + 1 + s + headRunLen isJsWs r3, [])
        else none
  else none

/-- Match `/export\s+default\s+function\s+(\w+)/`, replaced by
`function LessonComponent`. -/
def edfMatchAt (cs : List Char) : Option (Nat × List Char) :=
  if (chars "export").isPrefixOf cs then
    let r1 := cs.drop 6
    let w1 := headRunLen isJsWs r1
    if w1 = 0 then none
    else
      let r2 := r1.drop w1
      if (chars "default").isPrefixOf r2 then
        let r3 := r2.drop 7
        let w2 := headRunLen isJsWs r3
        if w2 = 0 then none
        else
          let r4 := r3.drop w2
          if (chars "function").isPrefixOf r4 then
            let r5 := r4.drop 8
            let w3 := headRunLen isJsWs r5
            if w3 = 0 then none
            else
              let nm := (r5.drop w3).takeWhile isWordChar
              if nm.isEmpty then none
              else some (6 + w1 + 7 + w2 + 8 + w3 + nm.length, chars "function LessonComponent")
          else none
      else none
  else none

/-- Match `/export\s+default\s+/`, removed. -/
def edMatchAt (cs : List Char) : Option (Nat × List Char) :=
  if (chars "export").isPrefixOf cs then
    let r1 := cs.drop 6
    let w1 := headRunLen isJsWs r1
    if w1 = 0 then none
    else
      let r2 := r1.drop w1
      if (chars "default").isPrefixOf r2 then
        let r3 := r2.drop 7
        let w2 := headRunLen isJsWs r3
        if w2 = 0 then none else some (6 + w1 + 7 + w2, [])
      else none
  else none

/-- Match `/export\s+/`, removed. -/
def exMatchAt (cs : List Char) : Option (Nat × List Char) :=
  if (chars "export").isPrefixOf cs then
    let w := headRunLen isJsWs (cs.drop 6)
    if w = 0 then none else some (6 + w, [])
  else none

/-- Match `/\n{3,}/`, replaced by two newlines. -/
def nlMatchAt (cs : List Char) : Option (Nat × List Char) :=
  let n := headRunLen (fun c => c = '\n') cs
  if 3 ≤ n then some (n, ['\n', '\n']) else none

/-- The source transform of the compilation endpoint: strip `use client`
directives in all accepted forms, strip imports, rebind the default
export to `LessonComponent`, drop remaining exports, trim, collapse blank
lines. -/
def transformSource (code : String) : String :=
  let t := code.data
  let t := replaceAll ucAnyAt t
  let t := uc2Go t.length t true
  let t := uc3Strip t
  let t := replaceAll impMatchAt2 t
  let t := replaceAll impMatchAt3 t
  let t := replaceAll edfMatchAt t
  let t := replaceAll edMatchAt t
  let t := replaceAll exMatchAt t
  let t := trimList t
  let t := replaceAll nlMatchAt t
  String.mk t

/-- The endpoint's final security scan over the compiled output:
`/\beval\s*\(/`, `/\bFunction\s*\(/`, `/new\s+Function\s*\(/`. -/
def compiledDangerScan (out : String) : Bool :=
  containsToksAtWordStart [Tok.lit (chars "eval"), Tok.wsStar, Tok.lit (chars "(")] out.data ||
  containsToksAtWordStart [Tok.lit (chars "Function"), Tok.wsStar, Tok.lit (chars "(")] out.data ||
  containsToks [Tok.lit (chars "new"), Tok.wsPlus, Tok.lit (chars "Function"),
    Tok.wsStar, Tok.lit (chars "(")] out.data

/-- The HTTP responses the endpoint can produce (rate-limit body, error
with status, or success carrying the compiled code). -/
inductive CompileResponse where
  | rateLimited (limit : Nat) (reset : Nat)
  | errorResp (status : Nat) (msg : String)
  | ok (compiledCode : String)
  deriving Repr, DecidableEq

/-- Is the response a success? -/
def CompileResponse.isOk : CompileResponse → Bool
  | .ok _ => true
  | _ => false

/-- The compiled code of a success response. -/
def CompileResponse.okText : CompileResponse → Option String
  | .ok s => some s
  | _ => none

/-- The compilation `POST` handler: rate limit, body checks, size and
minimum-length guards, source transform, transpilation (modelled as the
`transpile` oracle for `ts.transpileModule`), empty-output guard and the
dangerous-pattern scan.  Diagnostics are logged only and never block. -/
def compilePOST (st : RLStore) (key : String) (now : Nat)
    (transpile : String → String) (codeOpt : Option String) :
    CompileResponse × RLStore :=
  let (rl, st') := rateLimit st key now ⟨60000, 30⟩ false
  if !rl.success then (.rateLimited rl.limit rl.reset, st')
  else
    match codeOpt with
    | none => (.errorResp 400 "Code is required", st')
    | some code =>
      if code = "" then (.errorResp 400 "Code is required", st')
      else if 500000 < jsLen code then
        (.errorResp 413 ("Code is too large (" ++ toString ((jsLen code + 500) / 1000) ++
          "KB). Maximum allowed: 500KB"), st')
      else if jsLen (jsTrim code) < 100 then
        (.errorResp 400 "Code is too short to be a valid component", st')
      else
        let out := transpile (transformSource code)
        if (trimList out.data).isEmpty then
          (.errorResp 500 "Compilation produced empty output. The code may be invalid.", st')
        else if compiledDangerScan out then
          (.errorResp 500 "Compiled code contains unsafe patterns and cannot be executed", st')
        else (.ok out, st')

/-! ## Concrete fixtures used by witnesses and counterexamples -/

/-- A draft that satisfies every validator rule. -/
def goodCode : String :=
  "\"use client\";\nimport { useState } from \"react\";\nexport default function Lesson() \x7b\n  return (<div>hi</div>);\n\x7d\n"

/-- Oracles whose code model always answers a valid component. -/
def oGood : GenOracles :=
  ⟨fun _ => "Title", fun _ => goodCode, fun _ => ""⟩

/-- Oracles whose code model always answers the empty string (every
draft and every repair fails validation). -/
def oBad : GenOracles :=
  ⟨fun _ => "", fun _ => "", fun _ => ""⟩

/-- A compile-endpoint input containing a disallowed (`lodash`) import
and otherwise passing the endpoint's guards. -/
def srcLodash : String :=
  "\"use client\";\nimport stuff from \"lodash\";\nexport default function Lesson() \x7b\n  return (<div>some long content to reach one hundred characters minimum for the endpoint length check</div>);\n\x7d\n"

/-- A compile-endpoint input whose compiled output contains an
`innerHTML` assignment (a StaticValidator rule-6 primitive). -/
def srcInnerHTML : String :=
  "\"use client\";\nexport default function Lesson() \x7b\n  const run = (el: HTMLElement) => \x7b el.innerHTML = \"<b>hi</b>\"; \x7d;\n  return (<div>long enough content for the minimum length check of the endpoint here</div>);\n\x7d\n"

/-- A compile-endpoint input whose compiled output contains an `eval`
call. -/
def srcEval : String :=
  "\"use client\";\nexport default function Lesson() \x7b\n  const v = eval(\"1+1\");\n  return (<div>long enough content for the minimum length check of the endpoint okay</div>);\n\x7d\n"

/-- Inputs with import paths that merely contain `react` as a substring. -/
def srcReactish : String :=
  "import a from \"preact\";\nimport b from \"react-router\";\nimport c from \"my-react-evil\";"

/-- Does a success response's payload satisfy `p`? -/
def respContains (r : CompileResponse) (p : String → Bool) : Bool :=
  match r.okText with
  | some s => p s
  | none => false

/-! ## C7: admission filter length bounds -/

/-- C7: for every input whose trimmed length is below 10 or above 1000,
`validateLessonPrompt` returns `isValid = false`. -/
theorem admission_length_bounds (p : String)
    (h : jsLenList (trimList p.data) < 10 ∨ 1000 < jsLenList (trimList p.data)) :
    (validateLessonPrompt p).isValid = false := by
  unfold validateLessonPrompt
  by_cases hp : p = ""
  · simp only [if_pos hp]
  · rw [if_neg hp]
    by_cases h1 : jsLenList (trimList p.data) < 10
    · simp only [if_pos h1]
    · have h2 : 1000 < jsLenList (trimList p.data) := by omega
      simp only [if_neg h1, if_pos h2]

/-- Witness for C7 at the concrete prompt `"short"`. -/
theorem admission_length_bounds_witness :
    (jsLenList (trimList ("short" : String).data) < 10 ∨
      1000 < jsLenList (trimList ("short" : String).data)) ∧
    (validateLessonPrompt "short").isValid = false :=
  ⟨Or.inl (by decide), admission_length_bounds "short" (Or.inl (by decide))⟩

/-! ## C10: the qwerty spam pattern -/

/-- C10 counterexample: the prompt `"qwerty"` contains `qwerty` but is
rejected with the minimum-length error, not the spam-pattern error. -/
theorem qwerty_short_gets_length_error :
    containsCIList (chars "qwerty") (trimList ("qwerty" : String).data) = true ∧
    (validateLessonPrompt "qwerty").error =
      some "Please enter a more detailed prompt (at least 10 characters)" ∧
    (validateLessonPrompt "qwerty").error ≠
      some "Please enter a valid lesson-related prompt" := by
  refine ⟨by decide, by decide, by decide⟩

/-- C10 amended: every prompt whose trimmed text contains `qwerty`
(case-insensitively) is rejected; the error is the spam-pattern error
whenever the prompt also passes the earlier checks (length in range, no
invisible characters, at most ten emojis). -/
theorem qwerty_always_rejected (p : String)
    (h : containsCIList (chars "qwerty") (trimList p.data) = true) :
    (validateLessonPrompt p).isValid = false ∧
    (10 ≤ jsLenList (trimList p.data) → jsLenList (trimList p.data) ≤ 1000 →
      (trimList p.data).any isInvisibleChar = false →
      emojiCount (trimList p.data) ≤ 10 →
      (validateLessonPrompt p).error =
        some "Please enter a valid lesson-related prompt") := by
  have hspam : spamMatch (trimList p.data) = true := by
    simp [spamMatch, h]
  by_cases hp : p = ""
  · exact absurd (hp ▸ h) (by decide)
  · unfold validateLessonPrompt
    rw [if_neg hp]
    by_cases h1 : jsLenList (trimList p.data) < 10
    · refine ⟨by simp only [if_pos h1], fun hl1 _ _ _ => absurd h1 (by omega)⟩
    · rw [if_neg h1]
      by_cases h2 : 1000 < jsLenList (trimList p.data)
      · refine ⟨by simp only [if_pos h2], fun _ hl2 _ _ => absurd h2 (by omega)⟩
      · rw [if_neg h2]
        by_cases h3 : (trimList p.data).any isInvisibleChar = true
        · refine ⟨by simp only [if_pos h3], fun _ _ hl3 _ => ?_⟩
          rw [hl3] at h3
          exact absurd h3 (by simp)
        · rw [if_neg h3]
          by_cases h4 : 10 < emojiCount (trimList p.data)
          · refine ⟨by simp only [if_pos h4], fun _ _ _ hl4 => absurd h4 (by omega)⟩
          · rw [if_neg h4, if_pos hspam]
            exact ⟨rfl, fun _ _ _ _ => rfl⟩

/-- Witness for C10's amended claim at a legitimate QWERTY lesson
request. -/
theorem qwerty_always_rejected_witness :
    (validateLessonPrompt "lesson about the qwerty keyboard layout").isValid = false ∧
    (validateLessonPrompt "lesson about the qwerty keyboard layout").error =
      some "Please enter a valid lesson-related prompt" := by
  have h := qwerty_always_rejected "lesson about the qwerty keyboard layout" (by decide)
  exact ⟨h.1, h.2 (by decide) (by decide) (by decide) (by decide)⟩

/-! ## C6: rate limiter window behaviour -/

/-- Updating a key then reading it back. -/
theorem storeGet_storeSet (st : RLStore) (k : String) (e : RLEntry) :
    storeGet (storeSet st k e) k = some e := by
  induction st with
  | nil => simp [storeSet, storeGet]
  | cons p rest ih =>
    obtain ⟨k', e'⟩ := p
    by_cases hk : k' = k
    · simp [storeSet, storeGet, hk]
    · simp [storeSet, storeGet, hk, ih]

/-- Windows never reset at a time inside their own interval. -/
theorem window_not_passed (t c : Nat) : ¬ (t + c < t) := by omega

/-- C6: the limiter behaviour.  (1) A call inside a live window
increments its count and allows iff the post-increment count stays within
the maximum; (2) a call with no window, or whose stored reset time has
passed, starts a fresh window with count one; (3) with a maximum of five,
the sixth call for a key inside one window is denied; (4) the first call
after the window has elapsed resets the window and is allowed. -/
theorem rateLimit_window_behaviour :
    (∀ st key now cfg e, storeGet st key = some e → ¬ (e.resetTime < now) →
      ((rateLimit st key now cfg false).1.success = true ↔
        e.count + 1 ≤ cfg.uniqueTokenPerInterval) ∧
      storeGet (rateLimit st key now cfg false).2 key =
        some ⟨e.count + 1, e.resetTime⟩) ∧
    (∀ st key now cfg,
      (storeGet st key = none ∨ ∃ e, storeGet st key = some e ∧ e.resetTime < now) →
      ((rateLimit st key now cfg false).1.success = true ↔
        1 ≤ cfg.uniqueTokenPerInterval) ∧
      storeGet (rateLimit st key now cfg false).2 key =
        some ⟨1, now + cfg.interval⟩) ∧
    (∀ key t, (rateLimitSeq key ⟨60000, 5⟩ [t, t, t, t, t, t] []).1 =
      [true, true, true, true, true, false]) ∧
    (∀ key t u, t + 60000 < u →
      (rateLimit (rateLimitSeq key ⟨60000, 5⟩ [t, t, t, t, t, t] []).2
        key u ⟨60000, 5⟩ false).1.success = true) := by
  have hlive : ∀ st key now cfg e, storeGet st key = some e → ¬ (e.resetTime < now) →
      ((rateLimit st key now cfg false).1.success = true ↔
        e.count + 1 ≤ cfg.uniqueTokenPerInterval) ∧
      storeGet (rateLimit st key now cfg false).2 key =
        some ⟨e.count + 1, e.resetTime⟩ := by
    intro st key now cfg e hget hlive
    unfold rateLimit
    simp only [hget, if_neg hlive, storeGet_storeSet, if_neg (Bool.false_ne_true)]
    constructor
    · simp [Nat.not_lt]
    · trivial
  have hfresh : ∀ st key now cfg,
      (storeGet st key = none ∨ ∃ e, storeGet st key = some e ∧ e.resetTime < now) →
      ((rateLimit st key now cfg false).1.success = true ↔
        1 ≤ cfg.uniqueTokenPerInterval) ∧
      storeGet (rateLimit st key now cfg false).2 key =
        some ⟨1, now + cfg.interval⟩ := by
    intro st key now cfg hcase
    unfold rateLimit
    rcases hcase with hnone | ⟨e, hget, hpassed⟩
    · simp only [hnone, storeGet_storeSet, if_neg (Bool.false_ne_true)]
      constructor
      · simp only [Bool.not_eq_eq_eq_not, Bool.not_true, decide_eq_false_iff_not,
          Nat.not_lt]
      · simp
    · simp only [hget, if_pos hpassed, storeGet_storeSet, if_neg (Bool.false_ne_true)]
      constructor
      · simp only [Bool.not_eq_eq_eq_not, Bool.not_true, decide_eq_false_iff_not,
          Nat.not_lt]
      · simp
  refine ⟨hlive, hfresh, ?_, ?_⟩
  · intro key t
    simp [rateLimitSeq, rateLimit, storeGet, storeSet, window_not_passed t 60000]
  · intro key t u hu
    have h6 : storeGet (rateLimitSeq key ⟨60000, 5⟩ [t, t, t, t, t, t] []).2 key =
        some ⟨6, t + 60000⟩ := by
      simp [rateLimitSeq, rateLimit, storeGet, storeSet, window_not_passed t 60000]
    have := (hfresh (rateLimitSeq key ⟨60000, 5⟩ [t, t, t, t, t, t] []).2 key u
      ⟨60000, 5⟩ (Or.inr ⟨⟨6, t + 60000⟩, h6, hu⟩)).1
    exact this.mpr (by decide)

/-- Witness for C6 at concrete stores, times and configurations. -/
theorem rateLimit_window_behaviour_witness :
    (((rateLimit [("k", ⟨2, 100⟩)] "k" 50 ⟨60000, 5⟩ false).1.success = true ↔
        (2 : Nat) + 1 ≤ 5) ∧
      storeGet (rateLimit [("k", ⟨2, 100⟩)] "k" 50 ⟨60000, 5⟩ false).2 "k" =
        some ⟨3, 100⟩) ∧
    (((rateLimit [("k", ⟨9, 100⟩)] "k" 200 ⟨60000, 5⟩ false).1.success = true ↔
        (1 : Nat) ≤ 5) ∧
      storeGet (rateLimit [("k", ⟨9, 100⟩)] "k" 200 ⟨60000, 5⟩ false).2 "k" =
        some ⟨1, 60200⟩) ∧
    (rateLimitSeq "k" ⟨60000, 5⟩ [7, 7, 7, 7, 7, 7] []).1 =
      [true, true, true, true, true, false] ∧
    (rateLimit (rateLimitSeq "k" ⟨60000, 5⟩ [7, 7, 7, 7, 7, 7] []).2
      "k" 60008 ⟨60000, 5⟩ false).1.success = true := by
  obtain ⟨h1, h2, h3, h4⟩ := rateLimit_window_behaviour
  exact ⟨h1 [("k", ⟨2, 100⟩)] "k" 50 ⟨60000, 5⟩ ⟨2, 100⟩ (by decide) (by decide),
    h2 [("k", ⟨9, 100⟩)] "k" 200 ⟨60000, 5⟩ (Or.inr ⟨⟨9, 100⟩, by decide, by decide⟩),
    h3 "k" 7, h4 "k" 7 60008 (by decide)⟩

/-! ## C8: validation is deterministic and idempotent -/

/-- C8: two validations of the same source under the same parser
environment produce verdicts with the same validity flag and the same
violation list — the validator shares no state between calls. -/
theorem validate_idempotent (env : TsEnv) (code : String) (v1 v2 : CodeVerdict)
    (h1 : v1 = validateTypeScriptCode env code)
    (h2 : v2 = validateTypeScriptCode env code) :
    v1.isValid = v2.isValid ∧ v1.errors = v2.errors := by
  subst h1
  subst h2
  exact ⟨rfl, rfl⟩

/-- Witness for C8 at a concrete source. -/
theorem validate_idempotent_witness :
    (validateTypeScriptCode tsQuiet "x").isValid =
      (validateTypeScriptCode tsQuiet "x").isValid ∧
    (validateTypeScriptCode tsQuiet "x").errors =
      (validateTypeScriptCode tsQuiet "x").errors :=
  validate_idempotent tsQuiet "x" _ _ rfl rfl

/-! ## C9: the import rule is a `react` substring test -/

/-- The interpolated import-violation message. -/
def importViolationMsg (p : String) : String :=
  "Contains unsupported import: \"" ++ p ++ "\" (only React imports allowed)"

/-- Folding the rule-7 accumulator equals filtering the non-`react`
paths. -/
theorem rule7_fold_eq : ∀ (l acc : List String),
    l.foldl (fun acc p =>
      if !containsStr p "react" && p ≠ "react" then acc ++ [importViolationMsg p]
      else acc) acc =
    acc ++ (l.filter (fun p => !containsStr p "react")).map importViolationMsg := by
  intro l
  induction l with
  | nil => intro acc; simp
  | cons x xs ih =>
    intro acc
    cases hx : containsStr x "react" with
    | true =>
      have hcnd : (!containsStr x "react" && decide (x ≠ "react")) = false := by
        rw [hx]
        rfl
      rw [List.foldl_cons, List.filter_cons, hcnd, hx]
      simp only [Bool.not_true, Bool.false_eq_true, if_false]
      exact ih acc
    | false =>
      have hne : x ≠ "react" := by
        intro he
        subst he
        rw [show containsStr "react" "react" = true from by decide] at hx
        cases hx
      have hcnd : (!containsStr x "react" && decide (x ≠ "react")) = true := by
        rw [hx]
        simp [hne]
      rw [List.foldl_cons, List.filter_cons, hcnd, hx]
      simp only [Bool.not_false, if_true]
      rw [ih (acc ++ [importViolationMsg x])]
      simp

/-- C9: an import is flagged iff its captured path does not contain the
substring `react`; in particular `preact`, `react-router` and
`my-react-evil` (which all contain `react`) produce no import violation. -/
theorem import_rule_is_react_substring_test :
    (∀ code, rule7Errors code =
      ((extractImports code).filter (fun p => !containsStr p "react")).map
        importViolationMsg) ∧
    extractImports srcReactish = ["preact", "react-router", "my-react-evil"] ∧
    rule7Errors srcReactish = [] := by
  refine ⟨?_, by decide, by decide⟩
  intro code
  unfold rule7Errors
  rw [show (fun (acc : List String) (p : String) =>
      if !containsStr p "react" && p ≠ "react" then
        acc ++ ["Contains unsupported import: \"" ++ p ++ "\" (only React imports allowed)"]
      else acc) = (fun acc p =>
      if !containsStr p "react" && p ≠ "react" then acc ++ [importViolationMsg p]
      else acc) from rfl]
  rw [rule7_fold_eq]
  simp

/-! ## C5: non-short-circuiting rule collection -/

/-- C5 counterexample: the empty source short-circuits — it violates the
export-pattern rule as well, yet only the emptiness violation is
reported. -/
theorem validator_empty_shortcircuits :
    (validateTypeScriptCode tsQuiet "").errors = ["Code is empty"] ∧
    rule2Errors "" =
      ["Missing default export function (must use: export default function ComponentName())"] ∧
    "Missing default export function (must use: export default function ComponentName())" ∉
      (validateTypeScriptCode tsQuiet "").errors := by
  refine ⟨by decide, by decide, by decide⟩

/-- C5 amended: for every source that is nonempty after trimming, the
validator evaluates every rule and returns the concatenation of all their
violations, and the verdict is valid iff that list is empty.  (The empty
source is the one exception: it returns only the emptiness violation.) -/
theorem validator_nonempty_collects_all (env : TsEnv) (code : String)
    (h : trimList code.data ≠ []) :
    (validateTypeScriptCode env code).errors =
      rule2Errors code ++ rule3Errors code ++ rule4Errors code ++ rule5Errors code ++
      rule6Errors code ++ rule7Errors code ++ rule8Errors code ++ rule9Errors code ++
      rule10Errors code ++ rule11Errors code ++ rule12Errors code ++
      rule13Errors env code ∧
    ((validateTypeScriptCode env code).isValid = true ↔
      (validateTypeScriptCode env code).errors = []) := by
  unfold validateTypeScriptCode
  split
  · rename_i hq
    exfalso
    simp only [Bool.or_eq_true, decide_eq_true_eq, List.isEmpty_iff] at hq
    rcases hq with hq | hq
    · subst hq
      exact h rfl
    · exact h hq
  · refine ⟨rfl, ?_⟩
    simp [List.isEmpty_iff]

/-- Witness for C5's amended claim at a source violating both the
export-pattern rule and the brace-balance rule. -/
theorem validator_nonempty_collects_all_witness :
    trimList ("foo \x7b" : String).data ≠ [] ∧
    (validateTypeScriptCode tsQuiet "foo \x7b").errors =
      rule2Errors "foo \x7b" ++ rule3Errors "foo \x7b" ++ rule4Errors "foo \x7b" ++
      rule5Errors "foo \x7b" ++ rule6Errors "foo \x7b" ++ rule7Errors "foo \x7b" ++
      rule8Errors "foo \x7b" ++ rule9Errors "foo \x7b" ++ rule10Errors "foo \x7b" ++
      rule11Errors "foo \x7b" ++ rule12Errors "foo \x7b" ++
      rule13Errors tsQuiet "foo \x7b" :=
  ⟨by decide, (validator_nonempty_collects_all tsQuiet "foo \x7b" (by decide)).1⟩

/-! ## C2: success implies the returned code re-validates cleanly -/

/-- Success of the fuel-indexed worker yields a returned code that the
validator accepts. -/
theorem generateLessonAux_success_valid (env : TsEnv) (o : GenOracles) :
    ∀ fuel rc, (generateLessonAux env o fuel rc).1.success = true →
      ∃ c, (generateLessonAux env o fuel rc).1.code = some c ∧
        (validateTypeScriptCode env c).isValid = true := by
  intro fuel
  induction fuel with
  | zero =>
    intro rc h
    simp [generateLessonAux] at h
  | succ fuel ih =>
    intro rc h
    unfold generateLessonAux at h ⊢
    rcases hvfx : validateAndFixCode env o (cleanDraft (o.draftRaw (rc + 1))) (rc + 1)
      with ⟨v, fc⟩
    simp only [hvfx] at h ⊢
    cases hv : v.isValid with
    | false =>
      simp only [hv, Bool.not_false, if_true] at h ⊢
      by_cases hrc : rc < MAX_RETRIES - 1
      · simp only [if_pos hrc] at h ⊢
        rcases haux : generateLessonAux env o fuel (rc + 1) with ⟨r, n⟩
        simp only [haux] at h ⊢
        obtain ⟨c, hc, hval⟩ := ih (rc + 1) (by rw [haux]; exact h)
        rw [haux] at hc
        exact ⟨c, hc, hval⟩
      · simp only [if_neg hrc] at h
        simp at h
    | true =>
      simp only [hv, Bool.not_true, Bool.false_eq_true, if_false] at h ⊢
      cases hf : (validateTypeScriptCode env v.code).isValid with
      | false =>
        simp only [hf, Bool.not_false, if_true] at h
        simp at h
      | true =>
        simp only [hf, Bool.not_true, Bool.false_eq_true, if_false]
        exact ⟨v.code, rfl, hf⟩

/-- C2: whenever `generateLesson` reports success, it returns a code
string, and re-running the full static validator on that string yields a
valid verdict — the final re-validation gate guards every success path. -/
theorem generateLesson_success_revalidates (env : TsEnv) (o : GenOracles)
    (rc : Nat) (h : (generateLesson env o rc).1.success = true) :
    ∃ c, (generateLesson env o rc).1.code = some c ∧
      (validateTypeScriptCode env c).isValid = true :=
  generateLessonAux_success_valid env o MAX_RETRIES rc h

/-- Witness for C2: oracles that always produce a valid draft make
`generateLesson` succeed, and the theorem yields the revalidation fact. -/
theorem generateLesson_success_revalidates_witness :
    (generateLesson tsQuiet oGood 0).1.success = true ∧
    ∃ c, (generateLesson tsQuiet oGood 0).1.code = some c ∧
      (validateTypeScriptCode tsQuiet c).isValid = true :=
  ⟨by decide, generateLesson_success_revalidates tsQuiet oGood 0 (by decide)⟩

/-! ## C1: the number of code-generation model calls -/

/-- `validateAndFixCode` makes at most one code-model call. -/
theorem vfx_calls_le_one (env : TsEnv) (o : GenOracles) (c : String) (a : Nat) :
    (validateAndFixCode env o c a).2 ≤ 1 := by
  unfold validateAndFixCode
  cases hv : (validateTypeScriptCode env c).isValid <;> simp [hv]
  split_ifs <;> simp

/-- At the attempt ceiling, `validateAndFixCode` makes no repair call. -/
theorem vfx_calls_at_cap (env : TsEnv) (o : GenOracles) (c : String) (a : Nat)
    (h : ¬ a < MAX_RETRIES) : (validateAndFixCode env o c a).2 = 0 := by
  unfold validateAndFixCode
  cases hv : (validateTypeScriptCode env c).isValid <;> simp [hv, h]

/-- C1 counterexample: with a code model that never produces valid code,
the run starting at `retryCount = 0` ends Rejected after exactly five
code-generation calls (three drafts and two repairs) — more than three. -/
theorem generateLesson_five_calls :
    (generateLesson tsQuiet oBad 0).2 = 5 ∧
    (generateLesson tsQuiet oBad 0).1.success = false ∧
    ¬ (5 ≤ 3) := by
  refine ⟨by decide, by decide, by decide⟩

/-- Calls made by the worker are bounded by `2 * fuel - 1` along the
reachable executions, where the fuel and the retry counter always sum to
`MAX_RETRIES`. -/
theorem generateLessonAux_calls_bound (env : TsEnv) (o : GenOracles) :
    ∀ fuel rc, rc + fuel = MAX_RETRIES →
      (generateLessonAux env o fuel rc).2 ≤ 2 * fuel - 1 := by
  intro fuel
  induction fuel with
  | zero =>
    intro rc _
    simp [generateLessonAux]
  | succ fuel ih =>
    intro rc hsum
    unfold generateLessonAux
    rcases hvfx : validateAndFixCode env o (cleanDraft (o.draftRaw (rc + 1))) (rc + 1)
      with ⟨v, fc⟩
    have hfc : fc ≤ 1 := by
      have := vfx_calls_le_one env o (cleanDraft (o.draftRaw (rc + 1))) (rc + 1)
      rw [hvfx] at this
      exact this
    have hfc0 : fuel = 0 → fc = 0 := by
      intro hf0
      have hcap : ¬ (rc + 1 < MAX_RETRIES) := by omega
      have := vfx_calls_at_cap env o (cleanDraft (o.draftRaw (rc + 1))) (rc + 1) hcap
      rw [hvfx] at this
      exact this
    have hle : 1 + fc ≤ 2 * (fuel + 1) - 1 := by
      rcases Nat.eq_zero_or_pos fuel with hf | hf
      · have := hfc0 hf
        omega
      · omega
    simp only [hvfx]
    cases hv : v.isValid with
    | false =>
      simp only [Bool.not_false, if_true]
      by_cases hrc : rc < MAX_RETRIES - 1
      · simp only [if_pos hrc]
        rcases haux : generateLessonAux env o fuel (rc + 1) with ⟨r, n⟩
        have hn : n ≤ 2 * fuel - 1 := by
          have := ih (rc + 1) (by omega)
          rw [haux] at this
          exact this
        have hfuel : 1 ≤ fuel := by omega
        simp only [haux]
        show 1 + fc + n ≤ 2 * (fuel + 1) - 1
        omega
      · simp only [if_neg hrc]
        exact hle
    | true =>
      simp only [Bool.not_true, Bool.false_eq_true, if_false]
      split_ifs <;> exact hle

/-- C1 amended: a run of `generateLesson` starting at `retryCount = 0`
makes at most five code-generation model calls in total (up to three
drafts plus up to two repair calls), whatever the model answers. -/
theorem generateLesson_calls_le_five (env : TsEnv) (o : GenOracles) :
    (generateLesson env o 0).2 ≤ 5 := by
  have h := generateLessonAux_calls_bound env o MAX_RETRIES 0 rfl
  simpa [generateLesson, MAX_RETRIES] using h

/-! ## C3 and C4: the compilation endpoint -/

/-- Inversion of a success response: the payload is the transpiled
transform of the input, it passed the dangerous-pattern scan, and it is
not blank. -/
theorem compilePOST_ok_elim (st : RLStore) (key : String) (now : Nat)
    (tr : String → String) (c : String) (out : String)
    (h : (compilePOST st key now tr (some c)).1 = CompileResponse.ok out) :
    out = tr (transformSource c) ∧ compiledDangerScan out = false := by
  unfold compilePOST at h
  rcases hrl : rateLimit st key now ⟨60000, 30⟩ false with ⟨rl, st2⟩
  simp only [hrl] at h
  cases hs : rl.success with
  | false =>
    simp only [hs, Bool.not_false, if_true] at h
    cases h
  | true =>
    simp only [hs, Bool.not_true, Bool.false_eq_true, if_false] at h
    split_ifs at h with h1 h2 h3 h4 h5
    all_goals try cases h
    simp_all

/-- C3 counterexample: input whose compiled output contains an
`innerHTML` assignment — a StaticValidator rule-6 primitive — is accepted
by the compilation endpoint, which only re-scans for `eval`/`Function`
patterns. -/
theorem compile_accepts_innerHTML :
    (compilePOST [] "client" 0 (fun s => s) (some srcInnerHTML)).1.isOk = true ∧
    respContains (compilePOST [] "client" 0 (fun s => s) (some srcInnerHTML)).1
      (fun s => containsToks
        [Tok.lit (chars "innerHTML"), Tok.wsStar, Tok.lit (chars "=")] s.data) = true ∧
    rule6Errors srcInnerHTML = ["Contains dangerous innerHTML (XSS risk)"] := by
  refine ⟨by decide, by decide, by decide⟩

/-- C3 amended: the compilation step re-runs only the
dynamic-code-execution part of the dangerous-primitive scan (`eval`,
`Function` constructor, `new Function`) against the compiled output; a
match is a hard 500 failure, and every success response's payload is free
of those patterns.  The DOM-sink, `__proto__` and `document.write`
patterns of rule 6 are not re-checked. -/
theorem compile_scan_limited_to_dynamic_code :
    (∀ st key now tr c out,
      (compilePOST st key now tr (some c)).1 = CompileResponse.ok out →
      compiledDangerScan out = false) ∧
    (compilePOST [] "client" 0 (fun s => s) (some srcEval)).1 =
      CompileResponse.errorResp 500
        "Compiled code contains unsafe patterns and cannot be executed" := by
  refine ⟨?_, by decide⟩
  intro st key now tr c out h
  exact (compilePOST_ok_elim st key now tr c out h).2

/-- Witness for C3's amended claim: the success payload for a concrete
accepted input indeed passes the endpoint's scan. -/
theorem compile_scan_limited_to_dynamic_code_witness :
    compiledDangerScan
      ((compilePOST [] "client" 0 (fun s => s) (some srcInnerHTML)).1.okText.getD "") =
      false := by
  have hok : (compilePOST [] "client" 0 (fun s => s) (some srcInnerHTML)).1 =
      CompileResponse.ok
        ((compilePOST [] "client" 0 (fun s => s) (some srcInnerHTML)).1.okText.getD "") := by
    decide
  exact compile_scan_limited_to_dynamic_code.1 [] "client" 0 (fun s => s)
    srcInnerHTML _ hok

/-- C4 counterexample: input importing `lodash` — flagged by the static
validator's import rule — is accepted by the compilation endpoint with a
success response; no rejection happens. -/
theorem compile_accepts_disallowed_import :
    (compilePOST [] "client" 0 (fun s => s) (some srcLodash)).1.isOk = true ∧
    rule7Errors srcLodash =
      ["Contains unsupported import: \"lodash\" (only React imports allowed)"] := by
  refine ⟨by decide, by decide⟩

/-- C4 amended: the compilation endpoint performs no import check at
all — every success payload is exactly the transpiled source transform,
and the transform strips import statements (the concrete `lodash` import
is removed rather than rejected). -/
theorem compile_strips_imports_instead_of_rejecting :
    (∀ st key now tr c out,
      (compilePOST st key now tr (some c)).1 = CompileResponse.ok out →
      out = tr (transformSource c)) ∧
    containsStr (transformSource srcLodash) "lodash" = false ∧
    containsStr (transformSource srcLodash) "import" = false := by
  refine ⟨?_, by decide, by decide⟩
  intro st key now tr c out h
  exact (compilePOST_ok_elim st key now tr c out h).1

/-- Witness for C4's amended claim at the concrete `lodash` input with
the identity transpiler. -/
theorem compile_strips_imports_witness :
    (compilePOST [] "client" 0 (fun s => s) (some srcLodash)).1.okText.getD "" =
      transformSource srcLodash := by
  have hok : (compilePOST [] "client" 0 (fun s => s) (some srcLodash)).1 =
      CompileResponse.ok
        ((compilePOST [] "client" 0 (fun s => s) (some srcLodash)).1.okText.getD "") := by
    decide
  exact compile_strips_imports_instead_of_rejecting.1 [] "client" 0 (fun s => s)
    srcLodash _ hok

end LessonGen
